import Mathlib

/-!
Shallow embedding of the image-hosting backend (src/app.py).

Python byte strings and text strings are modelled as Lean `String`
(one `Char` per byte; all request data is treated as ASCII, matching the
byte-level operations of the source).  Filesystem and database effects are
modelled by explicit state passing over a `Store` structure; the external
image decoder (Pillow) is modelled as an oracle value `DecodeResult`.
-/

/-! ### Byte-string helpers (Python `bytes`/`str` operations) -/

/-- Whitespace set stripped by Python `bytes.strip()`. -/
def isPyWs (c : Char) : Bool :=
  c == ' ' || c == '\t' || c == '\n' || c == '\r' || c == '\x0b' || c == '\x0c'

/-- Python `bytes.strip()` on a character list. -/
def listStrip (l : List Char) : List Char :=
  ((l.dropWhile isPyWs).reverse.dropWhile isPyWs).reverse

/-- Python `bytes.strip()` on a string. -/
def pyStrip (s : String) : String := String.mk (listStrip s.data)

/-- Boolean test: the first list is an initial segment of the second. -/
def charPre : List Char → List Char → Bool
  | [], _ => true
  | _ :: _, [] => false
  | a :: t1, b :: t2 => a == b && charPre t1 t2

/-- Python `str.startswith` / `bytes.startswith`. -/
def strStartsWith (s t : String) : Bool := charPre t.data s.data

/-- Python `bytes.find`: index of the first occurrence of a subsequence. -/
def findSubIdx (needle : List Char) : List Char → Option Nat
  | [] => if needle.isEmpty then some 0 else none
  | c :: t =>
    if charPre needle (c :: t) then some 0
    else (findSubIdx needle t).map (· + 1)

/-- Python `in` on byte strings: substring containment. -/
def containsSub (needle hay : String) : Bool := (findSubIdx needle.data hay.data).isSome

/-- Fueled worker for `pySplit` (fuel keeps the recursion structural). -/
def splitFuel (sep : List Char) : Nat → List Char → List Char → List (List Char)
  | 0, acc, l => [acc.reverse ++ l]
  | fuel + 1, acc, l =>
    match l with
    | [] => [acc.reverse]
    | c :: t =>
      if charPre sep (c :: t) then
        acc.reverse :: splitFuel sep fuel [] ((c :: t).drop sep.length)
      else
        splitFuel sep fuel (c :: acc) t

/-- Python `bytes.split(sep)` with a non-empty separator. -/
def pySplit (s sep : String) : List String :=
  if sep.data.isEmpty then [s]
  else (splitFuel sep.data (s.data.length + 1) [] s.data).map String.mk

/-- Python slicing `s[n:]` for a non-negative index. -/
def strDrop (s : String) (n : Nat) : String := String.mk (s.data.drop n)

/-- Python `str.lower()` (ASCII model). -/
def strLower (s : String) : String := String.mk (s.data.map Char.toLower)

/-- Python `str.join` with separator " AND " as used in `get_image`. -/
def joinAnd : List String → String
  | [] => ""
  | c :: rest => rest.foldl (fun acc x => acc ++ " AND " ++ x) c

/-- Last index of a character in a list, or `none`. -/
def lastIdxOf (c : Char) (l : List Char) : Option Nat :=
  match l.reverse.findIdx? (fun a => a == c) with
  | some i => some (l.length - 1 - i)
  | none => none

/-- Python `int(str)`: body after the optional sign must be
digits optionally separated by single underscores. -/
def noDoubleUnderscore : List Char → Bool
  | c1 :: c2 :: t => !(c1 == '_' && c2 == '_') && noDoubleUnderscore (c2 :: t)
  | _ => true

/-- Validity of the digit body accepted by Python `int`. -/
def validIntBody (l : List Char) : Bool :=
  !l.isEmpty &&
  l.all (fun c => c.isDigit || c == '_') &&
  (match l.head? with | some c => c.isDigit | none => false) &&
  (match l.getLast? with | some c => c.isDigit | none => false) &&
  noDoubleUnderscore l

/-- Numeric value of a digit list (underscores removed beforehand). -/
def digitsVal (l : List Char) : Nat :=
  l.foldl (fun a c => 10 * a + (c.toNat - 48)) 0

/-- Python `int(s)`: strips whitespace, optional sign, digit body;
`none` models the `ValueError` raised on non-numeric input. -/
def pyInt? (s : String) : Option Int :=
  let l := ((s.data.dropWhile isPyWs).reverse.dropWhile isPyWs).reverse
  match l with
  | '+' :: t => if validIntBody t then some (digitsVal (t.filter (fun c => c != '_'))) else none
  | '-' :: t => if validIntBody t then some (-(digitsVal (t.filter (fun c => c != '_')) : Int)) else none
  | t => if validIntBody t then some (digitsVal (t.filter (fun c => c != '_'))) else none

/-! ### Filesystem path model (`os.path`)

An absolute path is a list of segments relative to the filesystem root;
the server's working directory is an abstract segment list `cwd`.
`normStep`/`normSegs` model the segment normalisation performed by
`os.path.abspath` (resolution of empty, `.` and `..` segments); rendering
back to characters models the string on which `str.startswith` runs. -/

/-- One step of `os.path.normpath` segment resolution. -/
def normStep (acc : List String) (s : String) : List String :=
  if s = "" ∨ s = "." then acc
  else if s = ".." then acc.dropLast
  else acc ++ [s]

/-- Segment normalisation of `os.path.abspath` on an absolute segment list. -/
def normSegs (l : List String) : List String := l.foldl normStep []

/-- Renders segments with a leading slash before each one. -/
def renderCore (segs : List String) : List Char :=
  segs.foldl (fun acc s => acc ++ '/' :: s.data) []

/-- The absolute path string (as characters) for a segment list. -/
def renderAbsPath (segs : List String) : List Char :=
  match segs with
  | [] => ['/']
  | _ :: _ => renderCore segs

/-- A plain path segment: non-empty and not a dot segment. -/
def plainSeg (s : String) : Prop := s ≠ "" ∧ s ≠ "." ∧ s ≠ ".."

instance (s : String) : Decidable (plainSeg s) := by
  unfold plainSeg; infer_instance

/-- A string that contains no path separator. -/
def noSlash (s : String) : Prop := ∀ c ∈ s.data, c ≠ '/'

instance (s : String) : Decidable (noSlash s) := by
  unfold noSlash; infer_instance

/-- Python `os.path.basename`: the part after the last separator. -/
def pyBasename (s : String) : String :=
  String.mk ((s.data.reverse.takeWhile (fun c => c != '/')).reverse)

/-- Splits a character list on the path separator. -/
def splitSlash : List Char → List (List Char)
  | [] => [[]]
  | c :: t =>
    if c = '/' then [] :: splitSlash t
    else
      match splitSlash t with
      | h :: r => (c :: h) :: r
      | [] => [[c]]

/-- Splits a path string into raw segments. -/
def splitSlashStr (s : String) : List String := (splitSlash s.data).map String.mk

/-! ### File serving (`_serve_file`, `_serve_static_file`, `_serve_uploaded_file`)

`fileAt` is the disk oracle: whether a regular file exists at the resolved
absolute path (`os.path.exists` and `os.path.isfile`).  The result is the
HTTP status together with the resolved path of the served file, if any. -/

/-- Embeds `_serve_file`: basename, join with the base directory, resolve
with `abspath`, check containment with `str.startswith`, then serve. -/
def serve_file (cwd : List String) (baseDir : String) (filePath : String)
    (fileAt : List String → Bool) : Nat × Option (List String) :=
  let filename := pyBasename filePath
  let fullPath := normSegs (cwd ++ [baseDir, filename])
  let baseAbs := normSegs (cwd ++ [baseDir])
  if charPre (renderAbsPath baseAbs) (renderAbsPath fullPath) then
    if fileAt fullPath then (200, some fullPath) else (404, none)
  else (403, none)

/-- Embeds `_serve_static_file` (static root `static`). -/
def serve_static_file (cwd : List String) (filePath : String)
    (fileAt : List String → Bool) : Nat × Option (List String) :=
  serve_file cwd "static" filePath fileAt

/-- Embeds `_serve_uploaded_file` (upload root `images`; the handler takes
the basename of the request path before delegating). -/
def serve_uploaded_file (cwd : List String) (path : String)
    (fileAt : List String → Bool) : Nat × Option (List String) :=
  serve_file cwd "images" (pyBasename path) fileAt

/-- Embeds the `/static/` and `/images/` branches of `do_GET`. -/
def do_GET_serve (cwd : List String) (path : String)
    (fileAt : List String → Bool) : Nat × Option (List String) :=
  if strStartsWith path "/static/" then serve_static_file cwd (strDrop path 8) fileAt
  else if strStartsWith path "/images/" then serve_uploaded_file cwd path fileAt
  else (404, none)

/-! ### Multipart parser (`_parse_multipart_data`) -/

/-- The header line marker tested by the parser. -/
def dispositionMarker : String := "Content-Disposition: form-data;"

/-- The header/body separator bytes. -/
def crlfcrlf : List Char := ['\r', '\n', '\r', '\n']

/-- Part test of the source loop: the part contains the disposition marker
and the text `filename=` anywhere in its bytes. -/
def isFileCandidate (p : String) : Bool :=
  containsSub dispositionMarker p && containsSub "filename=" p

/-- Embeds `re.search` of the pattern `filename="([^"]+)"`: scan left to
right; a match needs a non-empty run of non-quote characters closed by a
quote right after `filename="`. -/
def findQuotedFilename : List Char → Option (List Char)
  | [] => none
  | c :: t =>
    if charPre (String.data "filename=\"") (c :: t) then
      let after := (c :: t).drop 10
      let run := after.takeWhile (fun ch => ch != '"')
      if run.length > 0 && run.length < after.length then some run
      else findQuotedFilename t
    else findQuotedFilename t

/-- The decoded header region `part[:headers_end]`; Python `find` returns
`-1` when the separator is absent, so the slice is then `part[:-1]`. -/
def headersRegion (p : String) : List Char :=
  match findSubIdx crlfcrlf p.data with
  | some i => p.data.take i
  | none => p.data.take (p.data.length - 1)

/-- The payload `part[headers_end + 4:].strip()`; when `find` returned
`-1` the slice degenerates to `part[3:]`. -/
def partPayload (p : String) : String :=
  match findSubIdx crlfcrlf p.data with
  | some i => pyStrip (String.mk (p.data.drop (i + 4)))
  | none => pyStrip (String.mk (p.data.drop 3))

/-- One iteration of the source loop on a single part: marker test, then
quoted-filename extraction; a failed extraction yields `none` and the loop
falls through to the next part. -/
def parse_multipart_part (p : String) : Option (String × String) :=
  if isFileCandidate p then
    match findQuotedFilename (headersRegion p) with
    | some name => some (partPayload p, String.mk name)
    | none => none
  else none

/-- The loop of `_parse_multipart_data` over the split parts. -/
def firstFilePart : List String → Option (String × String)
  | [] => none
  | p :: rest =>
    match parse_multipart_part p with
    | some r => some r
    | none => firstFilePart rest

/-- Embeds `_parse_multipart_data`: split the body on `--boundary` and
return the first part with a successful quoted-filename extraction. -/
def parse_multipart_data (rawBody boundary : String) : Option (String × String) :=
  firstFilePart (pySplit rawBody ("--" ++ boundary))

/-- Modelled from the spec (section 4.2): the file part is the first part
containing the disposition marker and a `filename=` attribute; the parser
is claimed to return that part's quoted filename and trimmed payload, and
the absent pair when no such part exists. -/
def parse_multipart_spec (rawBody boundary : String) : Option (String × String) :=
  match (pySplit rawBody ("--" ++ boundary)).find? isFileCandidate with
  | none => none
  | some p =>
    match findQuotedFilename (headersRegion p) with
    | some name => some (partPayload p, String.mk name)
    | none => none

/-! ### Upload request pre-processing (`_handle_file_upload`) -/

/-- Default of `MAX_FILE_SIZE` (5 MiB). -/
def MAX_FILE_SIZE : Nat := 5 * 1024 * 1024

/-- Default of `ALLOWED_EXTENSIONS`. -/
def ALLOWED_EXTENSIONS : List String := [".jpg", ".jpeg", ".png", ".gif"]

/-- An incoming POST /upload request: the two headers the handler reads
and the bytes available on the socket. -/
structure UploadRequest where
  contentType : String
  contentLength : Option String
  body : String
deriving DecidableEq

/-- Outcome of the pre-processing stages of `_handle_file_upload`:
either an error response or the parsed file handed to validation. -/
inductive UploadOutcome where
  | badContentType
  | noBoundary
  | tooLarge
  | badLength
  | fileNotFound
  | validated (fileData filename : String)
deriving DecidableEq

/-- HTTP status of each pre-processing outcome (`none` when the request
proceeds to `_validate_and_save_file`, which chooses the status later). -/
def outcomeStatus : UploadOutcome → Option Nat
  | .badContentType => some 400
  | .noBoundary => some 400
  | .tooLarge => some 413
  | .badLength => some 411
  | .fileNotFound => some 400
  | .validated _ _ => none

/-- Embeds `content_type_header.split('boundary=')[1]`; `none` models the
`IndexError` when the attribute is absent. -/
def extractBoundary (ct : String) : Option String :=
  (pySplit ct "boundary=").get? 1

/-- Embeds `int(self.headers.get('Content-Length', 0))`: a missing header
defaults to the integer 0; a present header is parsed by `int`, whose
`ValueError` on non-numeric text is modelled by `none`. -/
def contentLengthVal (h : Option String) : Option Int :=
  match h with
  | none => some 0
  | some s => pyInt? s

/-- Embeds `self.rfile.read(content_length)`: a negative count reads the
whole stream, otherwise exactly `n` bytes are consumed. -/
def readBody (body : String) (n : Int) : String :=
  if n < 0 then body else String.mk (body.data.take n.toNat)

/-- Embeds the stages of `_handle_file_upload` before validation:
content-type check, boundary extraction, length pre-check, body read,
multipart parse, and the empty-file test. -/
def handle_file_upload_pre (maxSize : Nat) (req : UploadRequest) : UploadOutcome :=
  if strStartsWith req.contentType "multipart/form-data" then
    match extractBoundary req.contentType with
    | none => .noBoundary
    | some boundary =>
      match contentLengthVal req.contentLength with
      | none => .badLength
      | some n =>
        if n > (maxSize : Int) * 2 then .tooLarge
        else
          match parse_multipart_data (readBody req.body n) boundary with
          | none => .fileNotFound
          | some (fileData, filename) =>
            if fileData = "" ∨ filename = "" then .fileNotFound
            else .validated fileData filename
  else .badContentType

/-! ### Metadata store and upload validation -/

/-- One row of the `images` table (`upload_time` is kept implicitly: the
`meta` list below is maintained in upload-time-descending order, newest
first, matching `ORDER BY upload_time DESC`). -/
structure ImageRecord where
  id : String
  filename : String
  originalName : String
  size : Nat
  fileType : String
deriving DecidableEq

/-- Combined persistent state: filenames present in the upload directory
and the rows of the `images` table (newest first). -/
structure Store where
  disk : List String
  meta : List ImageRecord
deriving DecidableEq

/-- Pillow decode oracle for `Image.open`/`verify`: `fail` models any
exception, `ok` carries the decoded format name and pixel dimensions. -/
inductive DecodeResult where
  | fail
  | ok (format : String) (width height : Nat)
deriving DecidableEq

/-- Writing a file creates it or overwrites an existing one. -/
def diskWrite (disk : List String) (f : String) : List String :=
  if f ∈ disk then disk else f :: disk

/-- `os.remove` on the model (removes the entry). -/
def diskRemove (disk : List String) (f : String) : List String := disk.erase f

/-- Embeds `os.path.splitext(...)[1]`: the suffix from the last dot,
unless every character between the last separator and that dot is a dot. -/
def splitextExt (s : String) : String :=
  let l := s.data
  let sep : Int := match lastIdxOf '/' l with | some i => (i : Int) | none => -1
  let dot : Int := match lastIdxOf '.' l with | some i => (i : Int) | none => -1
  if dot > sep then
    let between := (l.drop (sep + 1).toNat).take (dot - sep - 1).toNat
    if between.any (fun c => c != '.') then String.mk (l.drop dot.toNat) else ""
  else ""

/-- Embeds `_validate_and_save_file`: extension allow-list, size ceiling,
structural image validation, then file write and metadata insert with the
compensating delete.  `uniqueName` stands for the generated
`uuid4().hex + ext` name, `newId` for the store-assigned row id, and
`insertOk` for the success of `db.save_image_metadata`.  The file write
itself is modelled as succeeding (its exception path leaves state and
response out of the claims considered here). -/
def validate_and_save_file (allowed : List String) (maxSize : Nat) (st : Store)
    (fileData filename : String) (decode : DecodeResult)
    (uniqueName newId : String) (insertOk : Bool) : Store × Nat :=
  let fileSize := fileData.length
  let fileExtension := strLower (splitextExt filename)
  if fileExtension ∉ allowed then (st, 400)
  else if fileSize > maxSize then (st, 400)
  else
    match decode with
    | .fail => (st, 400)
    | .ok format w h =>
      if format ∉ (["JPEG", "PNG", "GIF"] : List String) then (st, 400)
      else if w > 10000 ∨ h > 10000 then (st, 400)
      else
        let disk1 := diskWrite st.disk uniqueName
        let fileType := strLower format
        if insertOk then
          (Store.mk disk1 (ImageRecord.mk newId uniqueName filename fileSize fileType :: st.meta), 200)
        else
          (Store.mk (diskRemove disk1 uniqueName) st.meta, 500)

/-! ### Database queries (`Database.get_image`, list data) -/

/-- The columns of the `images` table; the spec claims `get_image`
whitelists its filter fields against this set. -/
def SQL_WHITELIST : List String :=
  ["id", "filename", "original_name", "size", "upload_time", "file_type"]

/-- Embeds the query construction of `get_image`: one `field = %s`
condition per filter, joined with `AND`, with `LIMIT 1`; no query is built
for an empty filter set.  Field names are interpolated as-is. -/
def get_image_query (filters : List (String × String)) : Option String :=
  if filters.isEmpty then none
  else
    some ("SELECT * FROM images WHERE " ++
      joinAnd (filters.map (fun p => p.1 ++ " = %s")) ++ " LIMIT 1")

/-- Row as a column-name/value mapping (`RealDictCursor`). -/
def rowMatches (row : List (String × String)) (filters : List (String × String)) : Bool :=
  filters.all (fun f => ((row.find? (fun kv => kv.1 == f.1)).map Prod.snd) == some f.2)

/-- Embeds the result semantics of `get_image`: the rows satisfying every
equality condition, limited to one, with `result[0] if result else None`. -/
def get_image_rows (rows : List (List (String × String)))
    (filters : List (String × String)) : Option (List (String × String)) :=
  if filters.isEmpty then none
  else ((rows.filter (fun r => rowMatches r filters)).take 1).head?

/-- Embeds `db.get_image(id=...)` as used by the delete handler: first
matching row of the id equality filter. -/
def db_get_image_by_id (meta : List ImageRecord) (i : String) : Option ImageRecord :=
  meta.find? (fun r => r.id == i)

/-- Embeds `db.delete_image`: `DELETE FROM images WHERE id = %s`. -/
def db_delete_image (meta : List ImageRecord) (i : String) : List ImageRecord :=
  meta.filter (fun r => r.id != i)

/-- Embeds `db.get_images(page, per_page)`: `ORDER BY upload_time DESC
LIMIT per_page OFFSET (page-1)*per_page` on the newest-first row list. -/
def get_images (meta : List ImageRecord) (page perPage : Nat) : List ImageRecord :=
  (meta.drop ((page - 1) * perPage)).take perPage

/-- The ids contained in the `/images-list-data` JSON response
(`db.get_images(1, 1000)`). -/
def images_list_data_ids (meta : List ImageRecord) : List String :=
  (get_images meta 1 1000).map (fun r => r.id)

/-! ### Delete handler (`_handle_file_delete`) -/

/-- Observable side effects of a delete request, in order. -/
inductive DeleteEvent where
  | fsRemove (filename : String)
  | dbDelete (id : String)
deriving DecidableEq

/-- The containment check of the delete handler:
`abspath(join(UPLOAD_DIR, filename)).startswith(abspath(UPLOAD_DIR))`.
The database filename may contain separators, so the joined path is split
into raw segments before resolution. -/
def delete_contained (cwd : List String) (filename : String) : Bool :=
  let segs :=
    if strStartsWith filename "/" then normSegs (splitSlashStr filename)
    else normSegs (cwd ++ "images" :: splitSlashStr filename)
  charPre (renderAbsPath (normSegs (cwd ++ ["images"]))) (renderAbsPath segs)

/-- Embeds `_handle_file_delete` (with the database connected): look the
id up via `get_image`, 404 when absent, containment check on the stored
filename, remove the file if present on disk, then delete the row;
`deleteOk` is the success of `db.delete_image`. -/
def handle_file_delete (cwd : List String) (st : Store) (imageId : String)
    (deleteOk : Bool) : Store × Nat × List DeleteEvent :=
  match db_get_image_by_id st.meta imageId with
  | none => (st, 404, [])
  | some record =>
    if delete_contained cwd record.filename then
      let onDisk := record.filename ∈ st.disk
      let disk1 := if onDisk then diskRemove st.disk record.filename else st.disk
      let evs := if onDisk then [DeleteEvent.fsRemove record.filename] else ([] : List DeleteEvent)
      if deleteOk then
        (Store.mk disk1 (db_delete_image st.meta imageId), 200, evs ++ [DeleteEvent.dbDelete imageId])
      else
        (Store.mk disk1 st.meta, 500, evs)
    else (st, 403, [])

/-- Disk oracle induced by the model state: a file exists exactly at the
resolved location of each stored upload-directory entry. -/
def diskFileAt (cwd : List String) (disk : List String) : List String → Bool :=
  fun segs => disk.any (fun f => decide (segs = normSegs (cwd ++ ["images", f])))

/-! ### Helper lemmas -/

/-- A list is an initial segment of itself extended. -/
theorem charPre_self_append (l t : List Char) : charPre l (l ++ t) = true := by
  induction l with
  | nil => rfl
  | cons a l ih => simp [charPre, ih]

/-- An initial segment is no longer than the whole. -/
theorem charPre_length (a b : List Char) (h : charPre a b = true) :
    a.length ≤ b.length := by
  induction a generalizing b with
  | nil => simp
  | cons x t ih =>
    cases b with
    | nil => simp [charPre] at h
    | cons y u =>
      simp only [charPre, Bool.and_eq_true] at h
      simpa using ih u h.2

/-- A strictly longer list is not an initial segment. -/
theorem charPre_false_of_lt (a b : List Char) (h : b.length < a.length) :
    charPre a b = false := by
  cases hcp : charPre a b with
  | false => rfl
  | true => exact absurd (charPre_length a b hcp) (by omega)

/-- Rebuilding a string from its characters is the identity. -/
theorem strMk_data (s : String) : String.mk s.data = s := rfl

/-- A string with no characters is the empty string. -/
theorem strData_eq_nil (s : String) (h : s.data = []) : s = "" := by
  have := congrArg String.mk h
  rwa [strMk_data] at this

/-- A non-empty string has a character. -/
theorem strData_ne_nil (s : String) (h : s ≠ "") : s.data ≠ [] :=
  fun hd => h (strData_eq_nil s hd)

/-- Folding `normStep` over plain segments appends them. -/
theorem normFold_plain (l : List String) (acc : List String)
    (h : ∀ s ∈ l, plainSeg s) : List.foldl normStep acc l = acc ++ l := by
  induction l generalizing acc with
  | nil => simp
  | cons s t ih =>
    have hs := h s (by simp)
    have hstep : normStep acc s = acc ++ [s] := by
      unfold normStep
      rw [if_neg (by rintro (h1 | h2) <;> [exact hs.1 h1; exact hs.2.1 h2]),
        if_neg hs.2.2]
    simp only [List.foldl_cons, hstep]
    rw [ih (acc ++ [s]) (fun x hx => h x (by simp [hx]))]
    simp

/-- Plain segment lists are already normalised. -/
theorem normSegs_plain (l : List String) (h : ∀ s ∈ l, plainSeg s) :
    normSegs l = l := by
  simpa using normFold_plain l [] h

/-- Normalisation of one appended segment. -/
theorem normSegs_append_last (l : List String) (x : String) :
    normSegs (l ++ [x]) = normStep (normSegs l) x := by
  unfold normSegs
  rw [List.foldl_append]
  rfl

/-- Rendering one appended segment. -/
theorem renderCore_append_one (l : List String) (x : String) :
    renderCore (l ++ [x]) = renderCore l ++ '/' :: x.data := by
  unfold renderCore
  rw [List.foldl_append]
  rfl

/-- Rendering a non-empty segment list uses the core fold. -/
theorem renderAbs_of_ne_nil (l : List String) (h : l ≠ []) :
    renderAbsPath l = renderCore l := by
  cases l with
  | nil => exact absurd rfl h
  | cons a t => rfl

/-- Appending a non-empty segment strictly lengthens the rendered path. -/
theorem renderAbs_len_lt (l : List String) (x : String) (hx : x ≠ "") :
    (renderAbsPath l).length < (renderAbsPath (l ++ [x])).length := by
  have hxd : x.data ≠ [] := strData_ne_nil x hx
  have hxl : 0 < x.data.length := List.length_pos.mpr hxd
  cases l with
  | nil =>
    show (['/'] : List Char).length < (renderCore [x]).length
    unfold renderCore
    simp
    exact hxl
  | cons a t =>
    rw [renderAbs_of_ne_nil (a :: t) (by simp),
      renderAbs_of_ne_nil ((a :: t) ++ [x]) (by simp),
      renderCore_append_one]
    simp

/-- `takeWhile` keeps a list all of whose elements satisfy the test. -/
theorem takeWhile_all_eq (p : Char → Bool) (l : List Char)
    (h : ∀ a ∈ l, p a = true) : l.takeWhile p = l := by
  induction l with
  | nil => rfl
  | cons a t ih =>
    rw [List.takeWhile_cons, h a (by simp)]
    simp [ih (fun x hx => h x (by simp [hx]))]

/-- `takeWhile` passes over a satisfied first block. -/
theorem takeWhile_append_all (p : Char → Bool) (l1 l2 : List Char)
    (h : ∀ a ∈ l1, p a = true) :
    (l1 ++ l2).takeWhile p = l1 ++ l2.takeWhile p := by
  induction l1 with
  | nil => simp
  | cons a t ih =>
    rw [List.cons_append, List.takeWhile_cons, h a (by simp)]
    simp [ih (fun x hx => h x (by simp [hx]))]

/-- The basename of a separator-free string is the string itself. -/
theorem pyBasename_noSlash (f : String) (h : noSlash f) : pyBasename f = f := by
  unfold pyBasename
  rw [takeWhile_all_eq _ _ (fun a ha => by
    have := h a (List.mem_reverse.mp ha)
    exact bne_iff_ne.mpr this)]
  rw [List.reverse_reverse, strMk_data]

/-- The basename after a directory whose rendering ends in a separator. -/
theorem pyBasename_append_dir (dir f : String)
    (hdir : dir.data.reverse.takeWhile (fun c => c != '/') = [])
    (hf : noSlash f) : pyBasename (dir ++ f) = f := by
  unfold pyBasename
  rw [String.data_append, List.reverse_append,
    takeWhile_append_all _ _ _ (fun a ha => by
      have := hf a (List.mem_reverse.mp ha)
      exact bne_iff_ne.mpr this), hdir]
  rw [List.append_nil, List.reverse_reverse, strMk_data]

/-- Splitting a separator-free character list yields one segment. -/
theorem splitSlash_noSlash (l : List Char) (h : ∀ a ∈ l, a ≠ '/') :
    splitSlash l = [l] := by
  induction l with
  | nil => rfl
  | cons c t ih =>
    unfold splitSlash
    rw [if_neg (h c (by simp)), ih (fun x hx => h x (by simp [hx]))]

/-- Splitting a separator-free string yields the string itself. -/
theorem splitSlashStr_noSlash (f : String) (h : noSlash f) :
    splitSlashStr f = [f] := by
  unfold splitSlashStr
  rw [splitSlash_noSlash f.data h]
  simp [strMk_data]

/-- A separator-free string does not start with the separator. -/
theorem strStartsWith_slash_false (f : String) (h : noSlash f) :
    strStartsWith f "/" = false := by
  unfold strStartsWith
  cases hd : f.data with
  | nil => rfl
  | cons c t =>
    have hc : c ≠ '/' := h c (by rw [hd]; simp)
    show charPre ['/'] (c :: t) = false
    have hb : ('/' == c) = false := beq_eq_false_iff_ne.mpr (fun hh => hc hh.symm)
    simp [charPre, hb]

/-! ### Claim C1 -/

/-- Claim C1, counterexample: the request path `/static/../style.css`
contains a traversal segment, yet the handler does not respond 403 — the
basename step neutralises the traversal and the request is answered 404
(no such file) rather than rejected. -/
theorem C1_counterexample :
    containsSub ".." "/static/../style.css" = true ∧
    (do_GET_serve ["srv"] "/static/../style.css" (fun _ => false)).1 = 404 ∧
    (do_GET_serve ["srv"] "/static/../style.css" (fun _ => false)).1 ≠ 403 := by
  refine ⟨by decide, by decide, by decide⟩

/-- Claim C1 (amended): traversal segments in a static or upload request
path are neutralised by the basename step; the resolved path lies outside
the root only when the basename itself is `..`, in which case the handler
responds 403, and every file the handler actually serves resolves to a
path under the configured root directory. -/
theorem C1_path_containment (cwd : List String) (base filePath : String)
    (fileAt : List String → Bool)
    (hcwd : ∀ s ∈ cwd, plainSeg s) (hbase : plainSeg base) :
    (pyBasename filePath = ".." → (serve_file cwd base filePath fileAt).1 = 403) ∧
    (∀ p, (serve_file cwd base filePath fileAt).2 = some p →
      ∃ t, (cwd ++ [base]) ++ t = p) := by
  have hplainA : ∀ s ∈ cwd ++ [base], plainSeg s := by
    intro s hs
    rcases List.mem_append.mp hs with h1 | h2
    · exact hcwd s h1
    · rw [List.mem_singleton.mp h2]; exact hbase
  have hbaseAbs : normSegs (cwd ++ [base]) = cwd ++ [base] :=
    normSegs_plain _ hplainA
  have hsplit : cwd ++ [base, pyBasename filePath] =
      (cwd ++ [base]) ++ [pyBasename filePath] := by simp
  have hfull : normSegs (cwd ++ [base, pyBasename filePath]) =
      normStep (cwd ++ [base]) (pyBasename filePath) := by
    rw [hsplit, normSegs_append_last, hbaseAbs]
  simp only [serve_file]
  by_cases hdots : pyBasename filePath = ".."
  · have hstep : normStep (cwd ++ [base]) (pyBasename filePath) = cwd := by
      unfold normStep
      rw [if_neg (by rw [hdots]; rintro (h1 | h2) <;> simp_all), if_pos hdots]
      simp
    have hlt : (renderAbsPath cwd).length <
        (renderAbsPath (cwd ++ [base])).length :=
      renderAbs_len_lt cwd base hbase.1
    rw [hbaseAbs, hfull, hstep, charPre_false_of_lt _ _ hlt]
    simp
  · constructor
    · intro hcontra; exact absurd hcontra hdots
    · intro p hp
      by_cases hdot1 : pyBasename filePath = "" ∨ pyBasename filePath = "."
      · have hstep : normStep (cwd ++ [base]) (pyBasename filePath) =
            cwd ++ [base] := by
          unfold normStep
          rw [if_pos hdot1]
        have hself : charPre (renderAbsPath (cwd ++ [base]))
            (renderAbsPath (cwd ++ [base])) = true := by
          simpa using charPre_self_append (renderAbsPath (cwd ++ [base])) []
        rw [hbaseAbs, hfull, hstep, hself] at hp
        cases hat : fileAt (cwd ++ [base]) with
        | true =>
          rw [hat] at hp
          simp at hp
          exact ⟨[], by simp [hp]⟩
        | false => rw [hat] at hp; simp at hp
      · have hstep : normStep (cwd ++ [base]) (pyBasename filePath) =
            (cwd ++ [base]) ++ [pyBasename filePath] := by
          unfold normStep
          rw [if_neg hdot1, if_neg hdots]
        have hne : cwd ++ [base] ≠ [] := by simp
        have hne2 : (cwd ++ [base]) ++ [pyBasename filePath] ≠ [] := by simp
        have hrender : renderAbsPath ((cwd ++ [base]) ++ [pyBasename filePath]) =
            renderCore (cwd ++ [base]) ++ '/' :: (pyBasename filePath).data := by
          rw [renderAbs_of_ne_nil _ hne2, renderCore_append_one]
        rw [hbaseAbs, hfull, hstep, hrender, renderAbs_of_ne_nil _ hne,
          charPre_self_append] at hp
        cases hat : fileAt ((cwd ++ [base]) ++ [pyBasename filePath]) with
        | true =>
          rw [hat] at hp
          simp at hp
          exact ⟨[pyBasename filePath], by simp [hp]⟩
        | false => rw [hat] at hp; simp at hp

/-- Claim C1, witness: a request whose basename is the traversal segment
itself is rejected with 403. -/
theorem C1_witness :
    (serve_file ["srv"] "static" ".." (fun _ => false)).1 = 403 :=
  (C1_path_containment ["srv"] "static" ".." (fun _ => false)
    (by decide) (by decide)).1 (by decide)

/-! ### Claim C2 -/

/-- Claim C2, counterexample: a POST /upload request with no
Content-Length header is not answered 411 — the header defaults to the
integer 0, zero bytes are read, and the pipeline ends in the 400
file-not-found response. -/
theorem C2_counterexample :
    (UploadRequest.mk "multipart/form-data; boundary=B" none "").contentLength = none ∧
    handle_file_upload_pre MAX_FILE_SIZE
      (UploadRequest.mk "multipart/form-data; boundary=B" none "") =
      UploadOutcome.fileNotFound ∧
    outcomeStatus (handle_file_upload_pre MAX_FILE_SIZE
      (UploadRequest.mk "multipart/form-data; boundary=B" none "")) ≠ some 411 := by
  refine ⟨rfl, by decide, by decide⟩

/-- Claim C2 (amended): a present but non-numeric Content-Length header
yields 411; a declared length exceeding twice the configured ceiling
yields 413 independently of the request body, which is therefore never
buffered; a missing header is not rejected but defaults to length 0. -/
theorem C2_length_checks (maxSize : Nat) (req : UploadRequest) (b : String)
    (hct : strStartsWith req.contentType "multipart/form-data" = true)
    (hb : extractBoundary req.contentType = some b) :
    (∀ s, req.contentLength = some s → pyInt? s = none →
      outcomeStatus (handle_file_upload_pre maxSize req) = some 411) ∧
    (∀ n : Int, contentLengthVal req.contentLength = some n →
      (maxSize : Int) * 2 < n → ∀ body2,
      outcomeStatus (handle_file_upload_pre maxSize
        (UploadRequest.mk req.contentType req.contentLength body2)) = some 413) := by
  constructor
  · intro s hs hn
    have hcl : contentLengthVal req.contentLength = none := by
      rw [hs]; exact hn
    simp only [handle_file_upload_pre, hct, hb, hcl, if_true]
    rfl
  · intro n hn hgt body2
    simp only [handle_file_upload_pre, hct, hb, hn, if_true]
    rw [if_pos hgt]
    rfl

/-- Claim C2, witness: concrete 411 and 413 responses obtained from the
amended theorem. -/
theorem C2_length_checks_witness :
    outcomeStatus (handle_file_upload_pre 100
      (UploadRequest.mk "multipart/form-data; boundary=B" (some "abc") "")) = some 411 ∧
    outcomeStatus (handle_file_upload_pre 100
      (UploadRequest.mk "multipart/form-data; boundary=B" (some "999") "XYZ")) = some 413 :=
  ⟨(C2_length_checks 100
      (UploadRequest.mk "multipart/form-data; boundary=B" (some "abc") "") "B"
      (by decide) (by decide)).1 "abc" rfl (by decide),
   (C2_length_checks 100
      (UploadRequest.mk "multipart/form-data; boundary=B" (some "999") "XYZ") "B"
      (by decide) (by decide)).2 999 (by decide) (by decide) "XYZ"⟩

/-! ### Claim C3 -/

/-- Claim C3, counterexample: `get_image` performs no whitelist check —
a filter on the column name `owner`, which is not a column of the
`images` table, is interpolated into the query and evaluated rather than
rejected. -/
theorem C3_counterexample :
    ("owner" ∈ SQL_WHITELIST → False) ∧
    get_image_query [("owner", "alice")] =
      some "SELECT * FROM images WHERE owner = %s LIMIT 1" ∧
    get_image_rows [[("owner", "alice"), ("id", "7")]] [("owner", "alice")] =
      some [("owner", "alice"), ("id", "7")] := by
  refine ⟨by decide, by decide, by decide⟩

/-- Claim C3 (amended): for every non-empty set of filters, `get_image`
builds a conjunction of equality conditions over exactly the
caller-supplied column names — with no whitelist validation — and returns
at most one row, which belongs to the table and satisfies every filter. -/
theorem C3_get_image_conjunction (rows : List (List (String × String)))
    (filters : List (String × String)) (r : List (String × String))
    (hne : filters ≠ [])
    (h : get_image_rows rows filters = some r) :
    r ∈ rows ∧ rowMatches r filters = true ∧
      (get_image_query filters).isSome = true := by
  have hemp : filters.isEmpty = false := by
    cases filters with
    | nil => exact absurd rfl hne
    | cons a t => rfl
  unfold get_image_rows at h
  rw [hemp] at h
  simp only [Bool.false_eq_true, if_false] at h
  have hq : (get_image_query filters).isSome = true := by
    unfold get_image_query
    rw [hemp]
    rfl
  cases hfl : rows.filter (fun x => rowMatches x filters) with
  | nil => rw [hfl] at h; simp at h
  | cons a t =>
    rw [hfl] at h
    simp only [List.take_cons, List.take_zero, List.head?] at h
    have hra : r = a := by
      injection h with h2
      exact h2.symm
    have hmem : a ∈ rows.filter (fun x => rowMatches x filters) := by
      rw [hfl]; simp
    have := List.mem_filter.mp hmem
    exact ⟨hra ▸ this.1, hra ▸ this.2, hq⟩

/-- Claim C3, witness: a concrete single-filter query returning the
matching row. -/
theorem C3_witness :
    [("id", "1")] ∈ [[("id", "1")]] ∧
    rowMatches [("id", "1")] [("id", "1")] = true ∧
    (get_image_query [("id", "1")]).isSome = true :=
  C3_get_image_conjunction [[("id", "1")]] [("id", "1")] [("id", "1")]
    (by decide) (by decide)

/-! ### Claim C4 -/

/-- Claim C4: when the upload passes validation and the file write
succeeds, a failing metadata insert triggers the compensating delete of
the just-written file and a 500 response, leaving the store exactly as it
was, so no file remains on disk without a metadata row. -/
theorem C4_insert_failure_compensation (allowed : List String) (maxSize : Nat)
    (st : Store) (fileData filename format : String) (w h : Nat)
    (uniqueName newId : String)
    (hext : strLower (splitextExt filename) ∈ allowed)
    (hsize : fileData.length ≤ maxSize)
    (hfmt : format ∈ (["JPEG", "PNG", "GIF"] : List String))
    (hw : w ≤ 10000) (hh : h ≤ 10000)
    (hfresh : uniqueName ∉ st.disk) :
    validate_and_save_file allowed maxSize st fileData filename
      (DecodeResult.ok format w h) uniqueName newId false = (st, 500) := by
  have h1 : (strLower (splitextExt filename) ∉ allowed) = False :=
    eq_false (not_not_intro hext)
  have h2 : (fileData.length > maxSize) = False := eq_false (by omega)
  have h3 : (format ∉ (["JPEG", "PNG", "GIF"] : List String)) = False :=
    eq_false (not_not_intro hfmt)
  have h4 : (w > 10000 ∨ h > 10000) = False := eq_false (by omega)
  simp only [validate_and_save_file, h1, h2, h3, h4, if_false,
    Bool.false_eq_true]
  rw [show diskWrite st.disk uniqueName = uniqueName :: st.disk from by
    unfold diskWrite; rw [if_neg hfresh]]
  unfold diskRemove
  rw [List.erase_cons_head]

/-- Claim C4, witness: a concrete upload whose metadata insert fails is
rolled back with status 500. -/
theorem C4_witness :
    validate_and_save_file ALLOWED_EXTENSIONS MAX_FILE_SIZE (Store.mk [] [])
      "DATA" "a.png" (DecodeResult.ok "PNG" 10 10) "u.png" "1" false =
      (Store.mk [] [], 500) :=
  C4_insert_failure_compensation ALLOWED_EXTENSIONS MAX_FILE_SIZE
    (Store.mk [] []) "DATA" "a.png" "PNG" 10 10 "u.png" "1"
    (by decide) (by decide) (by decide) (by decide) (by decide) (by decide)

/-! ### Claim C5 -/

/-- Claim C5: a DELETE request naming an id with no record responds 404
and leaves the store (records and files) unchanged; the handler checks
existence through `get_image` before any deletion step, so no delete
event is emitted. -/
theorem C5_delete_missing_id (cwd : List String) (st : Store)
    (imageId : String) (deleteOk : Bool)
    (h : db_get_image_by_id st.meta imageId = none) :
    handle_file_delete cwd st imageId deleteOk = (st, 404, []) := by
  simp only [handle_file_delete, h]

/-- Claim C5, witness: deleting a missing id from a concrete store. -/
theorem C5_witness :
    handle_file_delete ["srv"]
      (Store.mk ["f.png"] [ImageRecord.mk "1" "f.png" "o" 3 "png"]) "2" true =
      (Store.mk ["f.png"] [ImageRecord.mk "1" "f.png" "o" 3 "png"], 404, []) :=
  C5_delete_missing_id ["srv"]
    (Store.mk ["f.png"] [ImageRecord.mk "1" "f.png" "o" 3 "png"]) "2" true
    (by decide)

/-! ### Claim C7 -/

/-- Claim C7: an upload whose declared filename has a lower-cased
extension outside the allow-list, or whose payload exceeds the size
ceiling, is answered 400 with the store untouched — no file is written
and no record is created. -/
theorem C7_syntactic_rejection (allowed : List String) (maxSize : Nat)
    (st : Store) (fileData filename : String) (decode : DecodeResult)
    (uniqueName newId : String) (insertOk : Bool)
    (h : strLower (splitextExt filename) ∉ allowed ∨ maxSize < fileData.length) :
    validate_and_save_file allowed maxSize st fileData filename decode
      uniqueName newId insertOk = (st, 400) := by
  by_cases hext : strLower (splitextExt filename) ∈ allowed
  · have hsize : maxSize < fileData.length := h.resolve_left (not_not_intro hext)
    have h1 : (strLower (splitextExt filename) ∉ allowed) = False :=
      eq_false (not_not_intro hext)
    have h2 : (fileData.length > maxSize) = True := eq_true hsize
    simp only [validate_and_save_file, h1, h2, if_false, if_true]
  · have h1 : (strLower (splitextExt filename) ∉ allowed) = True := eq_true hext
    simp only [validate_and_save_file, h1, if_true]

/-- Claim C7, witness: a `.txt` upload is rejected with 400 and the store
is unchanged. -/
theorem C7_witness :
    validate_and_save_file ALLOWED_EXTENSIONS MAX_FILE_SIZE (Store.mk [] [])
      "DATA" "a.txt" (DecodeResult.ok "PNG" 10 10) "u.txt" "1" true =
      (Store.mk [] [], 400) :=
  C7_syntactic_rejection ALLOWED_EXTENSIONS MAX_FILE_SIZE (Store.mk [] [])
    "DATA" "a.txt" (DecodeResult.ok "PNG" 10 10) "u.txt" "1" true
    (Or.inl (by decide))

/-! ### Claim C8 -/

/-- Claim C8: an upload that passes the syntactic tier but whose payload
fails to decode, decodes to a format other than JPEG/PNG/GIF, or exceeds
10000 pixels in either dimension, is answered 400 with no file written
and no record created. -/
theorem C8_structural_rejection (allowed : List String) (maxSize : Nat)
    (st : Store) (fileData filename : String) (decode : DecodeResult)
    (uniqueName newId : String) (insertOk : Bool)
    (hext : strLower (splitextExt filename) ∈ allowed)
    (hsize : fileData.length ≤ maxSize)
    (hbad : decode = DecodeResult.fail ∨
      ∃ format w h, decode = DecodeResult.ok format w h ∧
        (format ∉ (["JPEG", "PNG", "GIF"] : List String) ∨ 10000 < w ∨ 10000 < h)) :
    validate_and_save_file allowed maxSize st fileData filename decode
      uniqueName newId insertOk = (st, 400) := by
  have h1 : (strLower (splitextExt filename) ∉ allowed) = False :=
    eq_false (not_not_intro hext)
  have h2 : (fileData.length > maxSize) = False := eq_false (by omega)
  rcases hbad with hfail | ⟨format, w, h, heq, hbad2⟩
  · subst hfail
    simp only [validate_and_save_file, h1, h2, if_false]
  · subst heq
    rcases hbad2 with hfmt | hdim
    · have h3 : (format ∉ (["JPEG", "PNG", "GIF"] : List String)) = True :=
        eq_true hfmt
      simp only [validate_and_save_file, h1, h2, h3, if_false, if_true]
    · have h3 : (w > 10000 ∨ h > 10000) = True := eq_true hdim
      by_cases hfmt : format ∈ (["JPEG", "PNG", "GIF"] : List String)
      · have h4 : (format ∉ (["JPEG", "PNG", "GIF"] : List String)) = False :=
          eq_false (not_not_intro hfmt)
        simp only [validate_and_save_file, h1, h2, h3, h4, if_false, if_true]
      · have h4 : (format ∉ (["JPEG", "PNG", "GIF"] : List String)) = True :=
          eq_true hfmt
        simp only [validate_and_save_file, h1, h2, h4, if_false, if_true]

/-- Claim C8, witness: a payload that fails to decode is rejected with
400 and the store is unchanged. -/
theorem C8_witness :
    validate_and_save_file ALLOWED_EXTENSIONS MAX_FILE_SIZE (Store.mk [] [])
      "DATA" "a.png" DecodeResult.fail "u.png" "1" true =
      (Store.mk [] [], 400) :=
  C8_structural_rejection ALLOWED_EXTENSIONS MAX_FILE_SIZE (Store.mk [] [])
    "DATA" "a.png" DecodeResult.fail "u.png" "1" true
    (by decide) (by decide) (Or.inl rfl)

/-! ### Claim C6 -/

/-- Every segment of a root extended by one plain directory is plain. -/
theorem plain_append_one (cwd : List String) (dir : String)
    (hcwd : ∀ s ∈ cwd, plainSeg s) (hdir : plainSeg dir) :
    ∀ s ∈ cwd ++ [dir], plainSeg s := by
  intro s hs
  rcases List.mem_append.mp hs with h1 | h2
  · exact hcwd s h1
  · rw [List.mem_singleton.mp h2]; exact hdir

/-- Every segment of a root extended by a plain directory and a plain
filename is plain. -/
theorem plain_append_pair (cwd : List String) (dir f : String)
    (hcwd : ∀ s ∈ cwd, plainSeg s) (hdir : plainSeg dir) (hf : plainSeg f) :
    ∀ s ∈ cwd ++ [dir, f], plainSeg s := by
  intro s hs
  rcases List.mem_append.mp hs with h1 | h2
  · exact hcwd s h1
  · rcases List.mem_cons.mp h2 with h2 | h2
    · rw [h2]; exact hdir
    · rw [List.mem_singleton.mp h2]; exact hf

/-- The base rendering is an initial segment of the extended rendering. -/
theorem charPre_base_full (X : List String) (f : String) (hX : X ≠ []) :
    charPre (renderAbsPath X) (renderAbsPath (X ++ [f])) = true := by
  rw [renderAbs_of_ne_nil X hX, renderAbs_of_ne_nil (X ++ [f]) (by simp),
    renderCore_append_one]
  exact charPre_self_append _ _

/-- The delete-handler containment check passes on a plain,
separator-free stored filename. -/
theorem delete_contained_plain (cwd : List String) (f : String)
    (hcwd : ∀ s ∈ cwd, plainSeg s) (hp : plainSeg f) (hns : noSlash f) :
    delete_contained cwd f = true := by
  simp only [delete_contained]
  rw [strStartsWith_slash_false f hns]
  simp only [Bool.false_eq_true, if_false]
  rw [splitSlashStr_noSlash f hns]
  have himg : plainSeg "images" := by decide
  have hfull : normSegs (cwd ++ "images" :: [f]) = cwd ++ ["images", f] :=
    normSegs_plain _ (plain_append_pair cwd "images" f hcwd himg hp)
  have hbase : normSegs (cwd ++ ["images"]) = cwd ++ ["images"] :=
    normSegs_plain _ (plain_append_one cwd "images" hcwd himg)
  rw [hfull, hbase,
    show cwd ++ ["images", f] = (cwd ++ ["images"]) ++ [f] from by simp]
  exact charPre_base_full _ _ (by simp)

/-- Claim C6: deleting an existing id removes the file from disk first
and the record second (in that event order); on success the response is
200, a subsequent GET of the file under `/images/` answers 404, and the
id disappears from the `/images-list-data` listing. -/
theorem C6_delete_existing (cwd : List String) (st : Store) (imageId : String)
    (r : ImageRecord)
    (hfind : db_get_image_by_id st.meta imageId = some r)
    (hplain : plainSeg r.filename) (hns : noSlash r.filename)
    (hcwd : ∀ s ∈ cwd, plainSeg s)
    (hdisk : r.filename ∈ st.disk) (hnodup : st.disk.Nodup)
    (hplaindisk : ∀ g ∈ st.disk, plainSeg g) :
    handle_file_delete cwd st imageId true =
      (Store.mk (st.disk.erase r.filename) (db_delete_image st.meta imageId),
        200, [DeleteEvent.fsRemove r.filename, DeleteEvent.dbDelete imageId]) ∧
    (serve_uploaded_file cwd ("/images/" ++ r.filename)
      (diskFileAt cwd (st.disk.erase r.filename))).1 = 404 ∧
    imageId ∉ images_list_data_ids (db_delete_image st.meta imageId) := by
  have himg : plainSeg "images" := by decide
  refine ⟨?_, ?_, ?_⟩
  · simp only [handle_file_delete, hfind,
      delete_contained_plain cwd r.filename hcwd hplain hns, if_true]
    have hmem : (r.filename ∈ st.disk) = True := eq_true hdisk
    simp only [hmem, if_true, diskRemove]
    rfl
  · have hb1 : pyBasename ("/images/" ++ r.filename) = r.filename :=
      pyBasename_append_dir "/images/" r.filename (by decide) hns
    have hb2 : pyBasename r.filename = r.filename := pyBasename_noSlash r.filename hns
    have hfull : normSegs (cwd ++ ["images", r.filename]) =
        (cwd ++ ["images"]) ++ [r.filename] := by
      rw [normSegs_plain _ (plain_append_pair cwd "images" r.filename hcwd himg hplain)]
      simp
    have hbase : normSegs (cwd ++ ["images"]) = cwd ++ ["images"] :=
      normSegs_plain _ (plain_append_one cwd "images" hcwd himg)
    have hfile : diskFileAt cwd (st.disk.erase r.filename)
        ((cwd ++ ["images"]) ++ [r.filename]) = false := by
      unfold diskFileAt
      cases hany : (st.disk.erase r.filename).any
          (fun g => decide ((cwd ++ ["images"]) ++ [r.filename] =
            normSegs (cwd ++ ["images", g]))) with
      | false => rfl
      | true =>
        exfalso
        obtain ⟨g, hg, hgp⟩ := List.any_eq_true.mp hany
        have hgmem : g ∈ st.disk := List.mem_of_mem_erase hg
        have hgsegs : normSegs (cwd ++ ["images", g]) = (cwd ++ ["images"]) ++ [g] := by
          rw [normSegs_plain _
            (plain_append_pair cwd "images" g hcwd himg (hplaindisk g hgmem))]
          simp
        have heq := of_decide_eq_true hgp
        rw [hgsegs] at heq
        have hfg : r.filename = g := by
          have := List.append_cancel_left heq
          simpa using this
        have hnot : r.filename ∉ st.disk.erase r.filename := by
          intro hmem
          exact (hnodup.mem_erase_iff.mp hmem).1 rfl
        exact hnot (hfg ▸ hg)
    unfold serve_uploaded_file
    rw [hb1]
    simp only [serve_file, hb2, hfull, hbase]
    rw [charPre_base_full (cwd ++ ["images"]) r.filename (by simp), hfile]
    rfl
  · intro hmem
    unfold images_list_data_ids get_images db_delete_image at hmem
    obtain ⟨rec, hrec, hid⟩ := List.mem_map.mp hmem
    have h1 : rec ∈ st.meta.filter (fun x => x.id != imageId) :=
      List.drop_subset _ _ (List.take_subset _ _ hrec)
    have h2 := (List.mem_filter.mp h1).2
    rw [hid] at h2
    simp at h2

/-- Claim C6, witness: deleting the only record of a concrete store
removes its file and row, and the follow-up requests no longer see it. -/
theorem C6_witness :
    handle_file_delete ["srv"]
      (Store.mk ["abc.png"] [ImageRecord.mk "1" "abc.png" "orig" 3 "png"]) "1" true =
      (Store.mk (["abc.png"].erase "abc.png")
        (db_delete_image [ImageRecord.mk "1" "abc.png" "orig" 3 "png"] "1"),
        200, [DeleteEvent.fsRemove "abc.png", DeleteEvent.dbDelete "1"]) ∧
    (serve_uploaded_file ["srv"] ("/images/" ++ "abc.png")
      (diskFileAt ["srv"] (["abc.png"].erase "abc.png"))).1 = 404 ∧
    "1" ∉ images_list_data_ids
      (db_delete_image [ImageRecord.mk "1" "abc.png" "orig" 3 "png"] "1") :=
  C6_delete_existing ["srv"]
    (Store.mk ["abc.png"] [ImageRecord.mk "1" "abc.png" "orig" 3 "png"]) "1"
    (ImageRecord.mk "1" "abc.png" "orig" 3 "png")
    (by decide) (by decide) (by decide) (by decide) (by decide) (by decide)
    (by decide)

/-! ### Claim C9 -/

/-- The parser loop agrees with the first-successful-extraction view of
the split parts when every candidate part extracts successfully. -/
theorem firstFilePart_eq_specFind (parts : List String)
    (h : ∀ p ∈ parts, isFileCandidate p = true →
      (findQuotedFilename (headersRegion p)).isSome = true) :
    firstFilePart parts =
      (match parts.find? isFileCandidate with
       | none => none
       | some p =>
         match findQuotedFilename (headersRegion p) with
         | some name => some (partPayload p, String.mk name)
         | none => none) := by
  induction parts with
  | nil => rfl
  | cons p rest ih =>
    by_cases hc : isFileCandidate p = true
    · have hsome := h p (by simp) hc
      obtain ⟨name, hname⟩ := Option.isSome_iff_exists.mp hsome
      rw [List.find?_cons_of_pos _ hc]
      simp [firstFilePart, parse_multipart_part, hc, hname]
    · have hcf : isFileCandidate p = false := by
        cases hcc : isFileCandidate p
        · rfl
        · exact absurd hcc hc
      rw [List.find?_cons_of_neg _ (by simp [hcf])]
      simp only [firstFilePart, parse_multipart_part, hcf, Bool.false_eq_true,
        if_false]
      exact ih (fun q hq hq2 => h q (by simp [hq]) hq2)

set_option maxRecDepth 100000 in
/-- Claim C9, counterexample: with boundary `B`, the first part carrying
the disposition marker and a `filename=` attribute has an unquoted
filename; the parser skips it and returns the second part, while the
spec's first-matching-part description returns the absent pair. -/
theorem C9_counterexample :
    parse_multipart_data "--B\r\nContent-Disposition: form-data; name=\"f\"; filename=unquoted\r\n\r\nDATA1\r\n--B\r\nContent-Disposition: form-data; name=\"f\"; filename=\"b.png\"\r\n\r\nDATA2\r\n--B--" "B" =
      some ("DATA2", "b.png") ∧
    parse_multipart_spec "--B\r\nContent-Disposition: form-data; name=\"f\"; filename=unquoted\r\n\r\nDATA1\r\n--B\r\nContent-Disposition: form-data; name=\"f\"; filename=\"b.png\"\r\n\r\nDATA2\r\n--B--" "B" =
      none ∧
    parse_multipart_data "--B\r\nContent-Disposition: form-data; name=\"f\"; filename=unquoted\r\n\r\nDATA1\r\n--B\r\nContent-Disposition: form-data; name=\"f\"; filename=\"b.png\"\r\n\r\nDATA2\r\n--B--" "B" ≠
    parse_multipart_spec "--B\r\nContent-Disposition: form-data; name=\"f\"; filename=unquoted\r\n\r\nDATA1\r\n--B\r\nContent-Disposition: form-data; name=\"f\"; filename=\"b.png\"\r\n\r\nDATA2\r\n--B--" "B" := by
  refine ⟨by decide, by decide, by decide⟩

/-- Claim C9 (amended): the parser returns the trimmed payload and quoted
filename of the first part that contains the marker header and whose
header region successfully matches a non-empty quoted `filename`;
candidate parts whose quoted-filename match fails are skipped rather than
terminating the search.  When every candidate part matches successfully,
this coincides with the spec's first-candidate description. -/
theorem C9_first_successful_match (rawBody boundary : String)
    (h : ∀ p ∈ pySplit rawBody ("--" ++ boundary), isFileCandidate p = true →
      (findQuotedFilename (headersRegion p)).isSome = true) :
    parse_multipart_data rawBody boundary = parse_multipart_spec rawBody boundary := by
  unfold parse_multipart_data parse_multipart_spec
  exact firstFilePart_eq_specFind _ h

/-- Claim C9, witness: on a well-formed single-file body the parser and
the spec description agree. -/
theorem C9_witness :
    parse_multipart_data
      "--B\r\nContent-Disposition: form-data; filename=\"a.png\"\r\n\r\nHELLO\r\n--B--" "B" =
    parse_multipart_spec
      "--B\r\nContent-Disposition: form-data; filename=\"a.png\"\r\n\r\nHELLO\r\n--B--" "B" :=
  C9_first_successful_match
    "--B\r\nContent-Disposition: form-data; filename=\"a.png\"\r\n\r\nHELLO\r\n--B--" "B"
    (by decide)

/-! ### Claim C10 -/

/-- A `dropWhile` residue all of whose elements satisfy the test is empty. -/
theorem dropWhile_all_eq_nil (p : Char → Bool) (l : List Char)
    (h : (l.dropWhile p).all p = true) : l.dropWhile p = [] := by
  induction l with
  | nil => rfl
  | cons c t ih =>
    cases hpc : p c with
    | true =>
      rw [List.dropWhile_cons, hpc] at h ⊢
      simp only [if_true] at h ⊢
      exact ih h
    | false =>
      rw [List.dropWhile_cons, hpc] at h
      simp only [Bool.false_eq_true, if_false] at h
      rw [List.all_cons, hpc] at h
      simp at h

/-- A stripped list consisting only of whitespace is empty. -/
theorem listStrip_all_ws (l : List Char)
    (h : (listStrip l).all isPyWs = true) : listStrip l = [] := by
  unfold listStrip at h ⊢
  rw [List.all_reverse] at h
  rw [dropWhile_all_eq_nil _ _ h]
  rfl

/-- A stripped string consisting only of whitespace is empty. -/
theorem pyStrip_all_ws (s : String)
    (h : (pyStrip s).data.all isPyWs = true) : pyStrip s = "" := by
  have hd : (pyStrip s).data = listStrip s.data := rfl
  rw [hd] at h
  unfold pyStrip
  rw [listStrip_all_ws s.data h]

/-- A successful part extraction returns the trimmed payload. -/
theorem parse_part_payload (p : String) (d f : String)
    (h : parse_multipart_part p = some (d, f)) : d = partPayload p := by
  unfold parse_multipart_part at h
  by_cases hc : isFileCandidate p = true
  · simp only [hc, if_true] at h
    cases hq : findQuotedFilename (headersRegion p) with
    | none => rw [hq] at h; simp at h
    | some name =>
      rw [hq] at h
      have := Option.some.inj h
      exact (congrArg Prod.fst this).symm
  · have hcf : isFileCandidate p = false := by
      cases hcc : isFileCandidate p
      · rfl
      · exact absurd hcc hc
    simp [hcf] at h

/-- Every part payload is in the image of the strip operation. -/
theorem partPayload_stripped (p : String) : ∃ t, partPayload p = pyStrip t := by
  unfold partPayload
  cases findSubIdx crlfcrlf p.data with
  | some i => exact ⟨_, rfl⟩
  | none => exact ⟨_, rfl⟩

/-- The payload returned by the parser loop is a stripped string. -/
theorem firstFilePart_payload (parts : List String) (d f : String)
    (h : firstFilePart parts = some (d, f)) : ∃ t, d = pyStrip t := by
  induction parts with
  | nil => simp [firstFilePart] at h
  | cons p rest ih =>
    unfold firstFilePart at h
    cases hp : parse_multipart_part p with
    | some r =>
      rw [hp] at h
      have hr : r = (d, f) := Option.some.inj h
      have hd : d = partPayload p := parse_part_payload p d f (by rw [hp, hr])
      obtain ⟨t, ht⟩ := partPayload_stripped p
      exact ⟨t, by rw [hd, ht]⟩
    | none => rw [hp] at h; exact ih h

/-- The payload returned by the multipart parser is a stripped string. -/
theorem parse_payload_stripped (raw b d f : String)
    (h : parse_multipart_data raw b = some (d, f)) : ∃ t, d = pyStrip t := by
  unfold parse_multipart_data at h
  exact firstFilePart_payload _ d f h

/-- Claim C10: a POST /upload whose file part's payload is empty or
consists only of whitespace bytes is trimmed to the empty byte string by
the parser, and the handler then answers with the 400 file-not-found
response, exactly as for an absent file part. -/
theorem C10_whitespace_payload (maxSize : Nat) (req : UploadRequest)
    (boundary : String) (n : Int) (d f : String)
    (hct : strStartsWith req.contentType "multipart/form-data" = true)
    (hb : extractBoundary req.contentType = some boundary)
    (hn : contentLengthVal req.contentLength = some n)
    (hsmall : ¬ n > (maxSize : Int) * 2)
    (hparse : parse_multipart_data (readBody req.body n) boundary = some (d, f))
    (hws : d.data.all isPyWs = true) :
    handle_file_upload_pre maxSize req = UploadOutcome.fileNotFound := by
  obtain ⟨t, ht⟩ := parse_payload_stripped _ _ _ _ hparse
  have hd : d = "" := by
    rw [ht]
    exact pyStrip_all_ws t (by rw [← ht]; exact hws)
  simp only [handle_file_upload_pre, hct, hb, hn, if_true]
  rw [if_neg hsmall]
  simp only [hparse]
  rw [if_pos (Or.inl hd)]

/-- Claim C10, witness: a concrete upload whose file payload is a single
space is answered with the file-not-found outcome. -/
theorem C10_witness :
    handle_file_upload_pre MAX_FILE_SIZE
      (UploadRequest.mk "multipart/form-data; boundary=B" (some "500")
        "--B\r\nContent-Disposition: form-data; filename=\"a.png\"\r\n\r\n \r\n--B--") =
      UploadOutcome.fileNotFound :=
  C10_whitespace_payload MAX_FILE_SIZE
    (UploadRequest.mk "multipart/form-data; boundary=B" (some "500")
      "--B\r\nContent-Disposition: form-data; filename=\"a.png\"\r\n\r\n \r\n--B--")
    "B" 500 "" "a.png"
    (by decide) (by decide) (by decide) (by decide) (by decide) (by decide)
